import Mathlib

/-!
Verification development for the carver-cli synchronization core.

Shallow embedding of the resilient synchronization pipeline:
ignore-file parsing (src/utils/gitignore.ts), the durable request queue
(src/utils/queue.ts), the resilient API client (src/services/api.ts),
the file-change monitor (the FileWatcher class implementing IFileWatcher
from src/types/fileWatcher.ts), and the realtime WebSocket channel
(src/services/websocket.ts).

Stateful TypeScript classes are embedded as explicit state-passing
functions over structures; JavaScript Map objects are embedded as
association lists with insertion-order preserving upsert; timers are
embedded as explicit "elapse/fire" transitions carrying the scheduled
deadline; asynchronous per-item processing is embedded sequentially,
which is faithful because each item is handled independently.
-/

/-! ### Association-list model of a JavaScript Map

JS `Map` iterates in key-insertion order; `set` on an existing key
updates the value in place (keeping the original position), otherwise it
appends.  `delete` removes the entry, `get` returns the value.
-/

def mapGet {β : Type} (m : List (String × β)) (k : String) : Option β :=
  (m.find? (fun e => e.fst == k)).map Prod.snd

def mapSet {β : Type} (m : List (String × β)) (k : String) (v : β) : List (String × β) :=
  if m.any (fun e => e.fst == k) then
    m.map (fun e => if e.fst == k then (k, v) else e)
  else
    m ++ [(k, v)]

def mapDelete {β : Type} (m : List (String × β)) (k : String) : List (String × β) :=
  m.filter (fun e => e.fst != k)

def mapHas {β : Type} (m : List (String × β)) (k : String) : Bool :=
  m.any (fun e => e.fst == k)

/-! ### Structurally reducible string primitives

The JavaScript string operations used by the sources (`trim`,
single-character `startsWith`/`endsWith`, `substring(1)`, splitting on
newlines, `toLowerCase`) are embedded directly over the character list
of the string, so that concrete witnesses evaluate by kernel
reduction. -/

def isWsChar (c : Char) : Bool :=
  c == ' ' || c == '\t' || c == '\r' || c == '\n'

/-- JavaScript `String.prototype.trim` (ASCII whitespace). -/
def jsTrim (s : String) : String :=
  ⟨((s.data.dropWhile isWsChar).reverse.dropWhile isWsChar).reverse⟩

/-- `s.startsWith(c)` for a single character `c`. -/
def strStartsWithChar (s : String) (c : Char) : Bool :=
  match s.data with
  | [] => false
  | a :: _ => a == c

/-- `s.endsWith(c)` for a single character `c`. -/
def strEndsWithChar (s : String) (c : Char) : Bool :=
  match s.data.getLast? with
  | some a => a == c
  | none => false

/-- `s.substring(1)`. -/
def strDropOne (s : String) : String :=
  ⟨s.data.drop 1⟩

/-- `s.slice(0, -1)`: drop the final character. -/
def strDropLast (s : String) : String :=
  ⟨s.data.dropLast⟩

def splitLinesAux (cur : List Char) : List Char → List (List Char)
  | [] => [cur.reverse]
  | c :: rest =>
    if c == '\n' then cur.reverse :: splitLinesAux [] rest
    else splitLinesAux (c :: cur) rest

/-- Split a string at every newline character. -/
def splitOnNewlines (s : String) : List String :=
  (splitLinesAux [] s.data).map (fun l => ⟨l⟩)

/-- JavaScript `String.prototype.toLowerCase` (ASCII letters). -/
def jsToLower (s : String) : String :=
  ⟨s.data.map Char.toLower⟩

/-! ### Ignore-file parsing (src/utils/gitignore.ts)

`convertGitignorePatternToGlob` (lines 56-82) trims the line, maps empty
lines, `#` comments and `!` negations to the empty string, strips one
leading `/`, and wraps directory patterns (trailing `/`) or plain
patterns in the recursive glob form.  `parseIgnoreFileContent`
(lines 89-94) splits on `/\r?\n/`, converts each line and filters out
the empty results.
-/

namespace Gitignore

def convertGitignorePatternToGlob (pattern : String) : String :=
  let trimmedPattern := jsTrim pattern
  if trimmedPattern = "" then ""
  else if strStartsWithChar trimmedPattern '#' then ""
  else if strStartsWithChar trimmedPattern '!' then ""
  else
    let stripped :=
      if strStartsWithChar trimmedPattern '/' then strDropOne trimmedPattern
      else trimmedPattern
    if strEndsWithChar stripped '/' then "**/" ++ stripped ++ "**"
    else "**/" ++ stripped

/-- The split `/\r?\n/` of the source: split at every newline, also
consuming a carriage return that immediately precedes it. -/
def splitIgnoreLines (content : String) : List String :=
  (splitOnNewlines content).map
    (fun l => if strEndsWithChar l '\r' then strDropLast l else l)

/-- A line that contributes no pattern: blank after trimming, a `#`
comment, or a `!` negation. -/
def isSkippedLine (line : String) : Bool :=
  jsTrim line == "" || strStartsWithChar (jsTrim line) '#'
    || strStartsWithChar (jsTrim line) '!'

def parseIgnoreFileContent (content : String) : List String :=
  ((splitIgnoreLines content).map convertGitignorePatternToGlob).filter (fun p => p != "")

theorem convert_factors_through_trim (p q : String) (h : jsTrim p = jsTrim q) :
    convertGitignorePatternToGlob p = convertGitignorePatternToGlob q := by
  unfold convertGitignorePatternToGlob
  rw [h]

theorem convert_of_skipped (line : String) (h : isSkippedLine line = true) :
    convertGitignorePatternToGlob line = "" := by
  simp only [isSkippedLine, Bool.or_eq_true, beq_iff_eq] at h
  simp only [convertGitignorePatternToGlob]
  by_cases h1 : jsTrim line = ""
  · rw [if_pos h1]
  · rw [if_neg h1]
    by_cases h2 : strStartsWithChar (jsTrim line) '#' = true
    · rw [if_pos h2]
    · rw [if_neg h2]
      have h3 : strStartsWithChar (jsTrim line) '!' = true := by tauto
      rw [if_pos h3]

theorem convert_ne_empty_of_not_skipped (line : String)
    (h : isSkippedLine line = false) :
    convertGitignorePatternToGlob line ≠ "" := by
  simp only [isSkippedLine, Bool.or_eq_false_iff] at h
  obtain ⟨⟨h1, h2⟩, h3⟩ := h
  simp only [convertGitignorePatternToGlob]
  rw [if_neg (by simpa using h1), if_neg (by simp [h2]), if_neg (by simp [h3])]
  intro heq
  split at heq <;> split at heq <;>
    · have hlen := congrArg String.length heq
      simp only [String.length_append] at hlen
      have hthree : "**/".length = 3 := rfl
      have hzero : "".length = 0 := rfl
      omega

theorem parse_filters_skipped (content : String) :
    parseIgnoreFileContent content =
      ((splitIgnoreLines content).filter (fun l => !(isSkippedLine l))).map
        convertGitignorePatternToGlob := by
  unfold parseIgnoreFileContent
  induction splitIgnoreLines content with
  | nil => rfl
  | cons l ls ih =>
    simp only [List.map_cons, List.filter_cons]
    cases hskip : isSkippedLine l
    · have hne := convert_ne_empty_of_not_skipped l hskip
      simp [hne, ih]
    · have heq := convert_of_skipped l hskip
      simp [heq, ih]

end Gitignore

/-- Claim C8: every ignore-file line is interpreted only through its
trimmed form (the interpretation is a function of `line.trim`); lines
that are blank after trimming, `#` comment lines and `!` negation lines
are recognized and contribute no pattern; the parsed pattern set is
exactly the conversion of the lines that are not skipped. -/
theorem c8_ignore_line_interpretation (content : String) :
    (∀ p q : String, jsTrim p = jsTrim q →
        Gitignore.convertGitignorePatternToGlob p = Gitignore.convertGitignorePatternToGlob q)
    ∧ (∀ line : String, Gitignore.isSkippedLine line = true →
        Gitignore.convertGitignorePatternToGlob line = "")
    ∧ Gitignore.parseIgnoreFileContent content =
        ((Gitignore.splitIgnoreLines content).filter
            (fun l => !(Gitignore.isSkippedLine l))).map
          Gitignore.convertGitignorePatternToGlob :=
  ⟨Gitignore.convert_factors_through_trim,
   Gitignore.convert_of_skipped,
   Gitignore.parse_filters_skipped content⟩

/-- Witness for C8 at a concrete ignore file: the negation line and the
indented comment line contribute nothing; the surviving lines become
recursive globs. -/
theorem c8_ignore_line_interpretation_witness :
    Gitignore.convertGitignorePatternToGlob "  !secret.txt" = ""
    ∧ Gitignore.parseIgnoreFileContent "src\n!secret.txt\n# note\n   \ndist/\n" =
        ["**/src", "**/dist/**"] :=
  ⟨(c8_ignore_line_interpretation "").2.1 "  !secret.txt" (by decide), by decide⟩

/-! ### The durable request queue (src/utils/queue.ts)

`RequestQueue<T>` keeps `QueueItem<T>` records.  The persisted file is
the `JSON.stringify` of the whole item array (saveQueue, lines 80-87);
construction re-reads it with `JSON.parse` (loadQueue, lines 63-75).
The JSON text is embedded at the level of its abstract syntax tree:
`saveQueue` produces the tree `JSON.stringify` would serialize and
`loadQueue` reads a tree back into typed items, failing on any shape
mismatch.  `JSON.stringify` omits the optional `error` field when it is
absent, which the encoder mirrors. -/

namespace RQ

inductive QueueStatus where
  | pending
  | processing
  | failed
deriving DecidableEq, Repr

structure QueueItem (α : Type) where
  id : String
  type : String
  data : α
  timestamp : Nat
  priority : Int
  retryCount : Nat
  status : QueueStatus
  error : Option String
deriving DecidableEq, Repr

inductive Json where
  | null
  | bool (b : Bool)
  | num (n : Int)
  | str (s : String)
  | arr (elems : List Json)
  | obj (fields : List (String × Json))

def statusToString : QueueStatus → String
  | .pending => "pending"
  | .processing => "processing"
  | .failed => "failed"

def statusOfString (s : String) : Option QueueStatus :=
  if s = "pending" then some .pending
  else if s = "processing" then some .processing
  else if s = "failed" then some .failed
  else none

def itemToJson {α : Type} (encodeData : α → Json) (item : QueueItem α) : Json :=
  .obj ([("id", .str item.id),
         ("type", .str item.type),
         ("data", encodeData item.data),
         ("timestamp", .num item.timestamp),
         ("priority", .num item.priority),
         ("retryCount", .num item.retryCount),
         ("status", .str (statusToString item.status))]
        ++ (match item.error with
            | some e => [("error", .str e)]
            | none => []))

def jsonLookup (fields : List (String × Json)) (key : String) : Option Json :=
  (fields.find? (fun f => f.fst == key)).map Prod.snd

def asStr : Option Json → Option String
  | some (.str s) => some s
  | _ => none

def asNat : Option Json → Option Nat
  | some (.num n) => if n < 0 then none else some n.toNat
  | _ => none

def asInt : Option Json → Option Int
  | some (.num n) => some n
  | _ => none

def jsonToItem {α : Type} (decodeData : Json → Option α) (j : Json) :
    Option (QueueItem α) :=
  match j with
  | .obj fields =>
    match asStr (jsonLookup fields "id"), asStr (jsonLookup fields "type"),
        (jsonLookup fields "data").bind decodeData,
        asNat (jsonLookup fields "timestamp"), asInt (jsonLookup fields "priority"),
        asNat (jsonLookup fields "retryCount"), asStr (jsonLookup fields "status") with
    | some i, some t, some d, some ts, some pr, some rc, some st =>
      match statusOfString st with
      | some status =>
        some { id := i, type := t, data := d, timestamp := ts, priority := pr,
               retryCount := rc, status := status,
               error := asStr (jsonLookup fields "error") }
      | none => none
    | _, _, _, _, _, _, _ => none
  | _ => none

/-- saveQueue: the persisted file is the array of all items. -/
def saveQueue {α : Type} (encodeData : α → Json) (q : List (QueueItem α)) : Json :=
  .arr (q.map (itemToJson encodeData))

/-- loadQueue: read the persisted array back; any malformed content
yields `none` (the source then falls back to the empty queue). -/
def loadQueue {α : Type} (decodeData : Json → Option α) (j : Json) :
    Option (List (QueueItem α)) :=
  match j with
  | .arr elems => elems.mapM (jsonToItem decodeData)
  | _ => none

/-- enqueue (lines 106-124): fresh item with `retryCount = 0` and
`pending` status appended at the end.  The generated id and the
`Date.now()` timestamp are taken as parameters of the operation. -/
structure EnqueueOp (α : Type) where
  id : String
  type : String
  data : α
  timestamp : Nat
  priority : Int

def enqueue {α : Type} (op : EnqueueOp α) (q : List (QueueItem α)) :
    List (QueueItem α) :=
  q ++ [{ id := op.id, type := op.type, data := op.data, timestamp := op.timestamp,
          priority := op.priority, retryCount := 0, status := .pending,
          error := none }]

/-- String payload codec used by concrete witnesses. -/
def strEnc : String → Json := Json.str

def strDec : Json → Option String
  | .str s => some s
  | _ => none

theorem statusOfString_statusToString (st : QueueStatus) :
    statusOfString (statusToString st) = some st := by
  cases st <;> rfl

theorem asNat_natCast (n : Nat) : asNat (some (.num (n : Int))) = some n := by
  have h : ¬((n : Int) < 0) := by omega
  simp [asNat, h]

theorem jsonToItem_itemToJson {α : Type} (enc : α → Json) (dec : Json → Option α)
    (it : QueueItem α) (hd : dec (enc it.data) = some it.data) :
    jsonToItem dec (itemToJson enc it) = some it := by
  obtain ⟨i, t, d, ts, pr, rc, st, err⟩ := it
  simp only at hd
  cases err <;>
    simp [itemToJson, jsonToItem, jsonLookup, asStr, asInt, List.find?, hd,
      asNat_natCast, statusOfString_statusToString]

theorem mapM_decode {α : Type} (enc : α → Json) (dec : Json → Option α)
    (hinv : ∀ a, dec (enc a) = some a) (q : List (QueueItem α)) :
    (q.map (itemToJson enc)).mapM (jsonToItem dec) = some q := by
  induction q with
  | nil => rfl
  | cons it rest ih =>
    rw [List.map_cons, List.mapM_cons, jsonToItem_itemToJson enc dec it (hinv it.data), ih]
    rfl

end RQ

/-- Claim C3: persistence round-trip identity.  Saving the queue file
(the serialization of the whole item array) and loading it back at
construction time restores the queue exactly; in particular every
`pending` and every `failed` item reappears with its original
`priority`, `retryCount` and payload.  The payload codec is a parameter
with the round-trip hypothesis JSON serialization satisfies. -/
theorem c3_persistence_roundtrip {α : Type} (enc : α → RQ.Json)
    (dec : RQ.Json → Option α) (hinv : ∀ a, dec (enc a) = some a)
    (q : List (RQ.QueueItem α)) :
    RQ.loadQueue dec (RQ.saveQueue enc q) = some q ∧
    ∀ q2, RQ.loadQueue dec (RQ.saveQueue enc q) = some q2 →
      ∀ it ∈ q2, (it.status = .pending ∨ it.status = .failed) → it ∈ q := by
  have h : RQ.loadQueue dec (RQ.saveQueue enc q) = some q := by
    unfold RQ.loadQueue RQ.saveQueue
    exact RQ.mapM_decode enc dec hinv q
  refine ⟨h, ?_⟩
  intro q2 h2 it hmem _
  rw [h] at h2
  cases h2
  exact hmem

/-- Witness for C3: two enqueues with distinct priorities and a
manually failed item survive the save/load round trip unchanged. -/
theorem c3_persistence_roundtrip_witness :
    RQ.loadQueue RQ.strDec (RQ.saveQueue RQ.strEnc
        (RQ.enqueue { id := "id2", type := "sync", data := "p2", timestamp := 5, priority := 1 }
          (RQ.enqueue { id := "id1", type := "sync", data := "p1", timestamp := 3, priority := 5 }
            [{ id := "id0", type := "sync", data := "p0", timestamp := 1, priority := 1,
               retryCount := 4, status := .failed, error := some "boom" }]))) =
      some
        (RQ.enqueue { id := "id2", type := "sync", data := "p2", timestamp := 5, priority := 1 }
          (RQ.enqueue { id := "id1", type := "sync", data := "p1", timestamp := 3, priority := 5 }
            [{ id := "id0", type := "sync", data := "p0", timestamp := 1, priority := 1,
               retryCount := 4, status := .failed, error := some "boom" }])) :=
  (c3_persistence_roundtrip RQ.strEnc RQ.strDec (fun _ => rfl) _).1

/-! ### Queue ordering and batch processing (queue.ts lines 260-327)

`processQueue` first sorts the array with the comparator of lines
269-281 (pending before non-pending, then descending priority, then
ascending timestamp).  `Array.prototype.sort` is stable (ECMAScript
2019), and a stable sort by a total preorder is unique, so the sort is
embedded as Mathlib's stable `List.insertionSort`.  Each loop iteration
then takes the first `processBatchSize` pending items (filter + slice,
lines 284-291) and processes them; a batch is embedded as a structural
pass consuming that many pending items, with the processor outcome
given by an oracle `f` (`none` = resolved, `some msg` = rejected with
message `msg`). -/

namespace RQ

/-- The comparator of lines 269-281 as an integer-valued compare. -/
def qcmp {α : Type} (a b : QueueItem α) : Int :=
  if a.status ≠ .pending ∨ b.status ≠ .pending then
    if a.status = .pending then -1
    else if b.status = .pending then 1
    else 0
  else if a.priority ≠ b.priority then b.priority - a.priority
  else (a.timestamp : Int) - b.timestamp

/-- `a` sorts no later than `b`. -/
def qle {α : Type} (a b : QueueItem α) : Prop :=
  qcmp a b ≤ 0

instance {α : Type} : DecidableRel (qle (α := α)) :=
  fun a b => inferInstanceAs (Decidable (qcmp a b ≤ 0))

theorem qcmp_neg {α : Type} (a b : QueueItem α) : qcmp b a = -qcmp a b := by
  unfold qcmp
  by_cases ha : a.status = .pending <;> by_cases hb : b.status = .pending <;>
    simp [ha, hb] <;> split_ifs <;> omega

instance {α : Type} : IsTotal (QueueItem α) qle :=
  ⟨by
    intro a b
    unfold qle
    rw [qcmp_neg]
    omega⟩

instance {α : Type} : IsTrans (QueueItem α) qle :=
  ⟨by
    intro a b c hab hbc
    unfold qle qcmp at hab hbc ⊢
    by_cases ha : a.status = .pending <;> by_cases hb : b.status = .pending <;>
      by_cases hc : c.status = .pending <;>
        simp only [ha, hb, hc, ne_eq, not_true_eq_false, not_false_eq_true, or_false,
          false_or, or_true, true_or, if_true, if_false, ite_true, ite_false,
          or_self] at hab hbc ⊢ <;>
          first
          | omega
          | (split_ifs at hab hbc ⊢ <;> omega)⟩

/-- The stable sort of `processQueue` (lines 269-281). -/
def sortQueue {α : Type} (q : List (QueueItem α)) : List (QueueItem α) :=
  List.insertionSort qle q

/-- Lines 284-291: a batch is the first `batchSize` pending items of
the (sorted) queue. -/
def selectBatch {α : Type} (batchSize : Nat) (q : List (QueueItem α)) :
    List (QueueItem α) :=
  (q.filter (fun it => it.status == .pending)).take batchSize

/-- Lines 304-317: outcome of one failing processor invocation. -/
def applyFailure {α : Type} (maxRetries : Nat) (msg : String) (it : QueueItem α) :
    QueueItem α :=
  let rc := it.retryCount + 1
  if rc ≥ maxRetries then
    { it with retryCount := rc, status := .failed, error := some msg }
  else
    { it with retryCount := rc, status := .pending }

/-- One batch of lines 293-319 over the sorted queue: the first `k`
pending items are either removed (processor resolved) or replaced by
`applyFailure`; every other item is left untouched. -/
def processBatchAux {α : Type} (maxRetries : Nat) (f : QueueItem α → Option String) :
    Nat → List (QueueItem α) → List (QueueItem α)
  | _, [] => []
  | k, it :: rest =>
    if it.status = .pending ∧ 0 < k then
      match f it with
      | none => processBatchAux maxRetries f (k - 1) rest
      | some msg => applyFailure maxRetries msg it :: processBatchAux maxRetries f (k - 1) rest
    else it :: processBatchAux maxRetries f k rest

/-- The first batch of a `processQueue` run: sort, then process one
batch of `batchSize` pending items. -/
def processQueueStep {α : Type} (maxRetries batchSize : Nat)
    (f : QueueItem α → Option String) (q : List (QueueItem α)) :
    List (QueueItem α) :=
  processBatchAux maxRetries f batchSize (sortQueue q)

/-- Source defaults: `maxRetries` 5, `processBatchSize` 10. -/
def defaultMaxRetries : Nat := 5

def defaultProcessBatchSize : Nat := 10

theorem failed_item_untouched {α : Type} (maxRetries : Nat)
    (f : QueueItem α → Option String) (it : QueueItem α)
    (hst : it.status = .failed) :
    ∀ (k : Nat) (q : List (QueueItem α)), it ∈ q →
      it ∈ processBatchAux maxRetries f k q := by
  intro k q
  induction q generalizing k with
  | nil => intro h; cases h
  | cons x rest ih =>
    intro hmem
    unfold processBatchAux
    rcases List.mem_cons.mp hmem with heq | hmem2
    · subst heq
      rw [if_neg]
      · exact List.mem_cons_self _ _
      · intro hcon
        rw [hst] at hcon
        exact absurd hcon.1 (by simp)
    · by_cases hcond : x.status = .pending ∧ 0 < k
      · rw [if_pos hcond]
        cases hf : f x
        · exact ih (k - 1) hmem2
        · exact List.mem_cons_of_mem _ (ih (k - 1) hmem2)
      · rw [if_neg hcond]
        exact List.mem_cons_of_mem _ (ih k hmem2)

end RQ

/-- Claim C4: within a `processQueue` batch, a failing pending item is
replaced by `applyFailure`, which increments `retryCount` by exactly 1
and reverts the item to `pending`, unless the incremented count has
reached `maxRetries`, in which case the item becomes `failed` with the
captured error message; a successfully processed item is removed; items
already `failed` pass through every batch untouched and a batch only
ever selects `pending` items. -/
theorem c4_retry_semantics {α : Type} (maxRetries : Nat)
    (f : RQ.QueueItem α → Option String) :
    (∀ (it : RQ.QueueItem α) (msg : String) (k : Nat) (rest : List (RQ.QueueItem α)),
        it.status = .pending → 0 < k → f it = some msg →
        RQ.processBatchAux maxRetries f k (it :: rest) =
          RQ.applyFailure maxRetries msg it :: RQ.processBatchAux maxRetries f (k - 1) rest)
    ∧ (∀ (it : RQ.QueueItem α) (k : Nat) (rest : List (RQ.QueueItem α)),
        it.status = .pending → 0 < k → f it = none →
        RQ.processBatchAux maxRetries f k (it :: rest) =
          RQ.processBatchAux maxRetries f (k - 1) rest)
    ∧ (∀ (it : RQ.QueueItem α) (msg : String),
        (RQ.applyFailure maxRetries msg it).retryCount = it.retryCount + 1
        ∧ (it.retryCount + 1 ≥ maxRetries →
            (RQ.applyFailure maxRetries msg it).status = .failed
            ∧ (RQ.applyFailure maxRetries msg it).error = some msg)
        ∧ (it.retryCount + 1 < maxRetries →
            (RQ.applyFailure maxRetries msg it).status = .pending
            ∧ (RQ.applyFailure maxRetries msg it).error = it.error))
    ∧ (∀ (it : RQ.QueueItem α) (k : Nat) (q : List (RQ.QueueItem α)),
        it.status = .failed → it ∈ q → it ∈ RQ.processBatchAux maxRetries f k q)
    ∧ (∀ (n : Nat) (q : List (RQ.QueueItem α)) (it : RQ.QueueItem α),
        it ∈ RQ.selectBatch n q → it.status = .pending) := by
  refine ⟨?_, ?_, ?_, ?_, ?_⟩
  · intro it msg k rest h1 h2 hf
    simp only [RQ.processBatchAux]
    rw [if_pos ⟨h1, h2⟩, hf]
  · intro it k rest h1 h2 hf
    simp only [RQ.processBatchAux]
    rw [if_pos ⟨h1, h2⟩, hf]
  · intro it msg
    refine ⟨?_, ?_, ?_⟩
    · simp only [RQ.applyFailure]
      split_ifs <;> rfl
    · intro h
      simp only [RQ.applyFailure]
      rw [if_pos h]
      exact ⟨rfl, rfl⟩
    · intro h
      simp only [RQ.applyFailure]
      rw [if_neg (by omega)]
      exact ⟨rfl, rfl⟩
  · intro it k q hst hmem
    exact RQ.failed_item_untouched maxRetries f it hst k q hmem
  · intro n q it h
    have h2 := List.mem_of_mem_take h
    have h3 := List.of_mem_filter h2
    simpa using h3

/-- Witness for C4: a single pending item whose processing rejects has
its retry count bumped from 0 to 1 and stays pending (1 < 5). -/
theorem c4_retry_semantics_witness :
    RQ.processBatchAux 5 (fun _ => some "boom") 10
        [{ id := "i1", type := "sync", data := "p", timestamp := 1, priority := 1,
           retryCount := 0, status := .pending, error := none }] =
      [{ id := "i1", type := "sync", data := "p", timestamp := 1, priority := 1,
         retryCount := 1, status := .pending, error := none }] := by
  have h := (c4_retry_semantics 5 (fun _ => some "boom")).1
      { id := "i1", type := "sync", data := ("p" : String), timestamp := 1, priority := 1,
        retryCount := 0, status := .pending, error := none }
      "boom" 10 [] rfl (by decide) rfl
  rw [h]
  rfl

/-- Claim C5: the queue is serviced in the comparator order of
`processQueue`: `pending` items strictly before non-pending ones, then
by descending priority, then by ascending enqueue timestamp, ties kept
in insertion order (the sort is stable); in the concrete scenario of
two priority-5 items enqueued before a priority-1 item, the first batch
services both priority-5 items before the priority-1 item, oldest
first. -/
theorem c5_processing_order {α : Type} (q : List (RQ.QueueItem α)) :
    List.Sorted RQ.qle (RQ.sortQueue q)
    ∧ (∀ a1 a2 a3 : RQ.QueueItem α,
        a1.status = .pending → a2.status = .pending → a3.status = .pending →
        a1.priority = 5 → a2.priority = 5 → a3.priority = 1 →
        a1.timestamp ≤ a2.timestamp →
        RQ.sortQueue [a1, a2, a3] = [a1, a2, a3]
        ∧ RQ.selectBatch RQ.defaultProcessBatchSize (RQ.sortQueue [a1, a2, a3]) =
            [a1, a2, a3]) := by
  refine ⟨List.sorted_insertionSort RQ.qle q, ?_⟩
  intro a1 a2 a3 h1 h2 h3 hp1 hp2 hp3 hts
  have h23 : RQ.qle a2 a3 := by
    unfold RQ.qle RQ.qcmp
    simp [h2, h3, hp2, hp3]
  have h12 : RQ.qle a1 a2 := by
    unfold RQ.qle RQ.qcmp
    simp [h1, h2, hp1, hp2]
    omega
  have hsort : RQ.sortQueue [a1, a2, a3] = [a1, a2, a3] := by
    unfold RQ.sortQueue
    simp [List.insertionSort, List.orderedInsert, h12, h23]
  refine ⟨hsort, ?_⟩
  rw [hsort]
  unfold RQ.selectBatch RQ.defaultProcessBatchSize
  simp [h1, h2, h3]

/-- Witness for C5: three concrete items, two of priority 5 then one of
priority 1, are serviced in enqueue order. -/
theorem c5_processing_order_witness :
    RQ.sortQueue
        [{ id := "a", type := "sync", data := ("p" : String), timestamp := 1, priority := 5,
           retryCount := 0, status := .pending, error := none },
         { id := "b", type := "sync", data := "p", timestamp := 2, priority := 5,
           retryCount := 0, status := .pending, error := none },
         { id := "c", type := "sync", data := "q", timestamp := 3, priority := 1,
           retryCount := 0, status := .pending, error := none }] =
      [{ id := "a", type := "sync", data := "p", timestamp := 1, priority := 5,
         retryCount := 0, status := .pending, error := none },
       { id := "b", type := "sync", data := "p", timestamp := 2, priority := 5,
         retryCount := 0, status := .pending, error := none },
       { id := "c", type := "sync", data := "q", timestamp := 3, priority := 1,
         retryCount := 0, status := .pending, error := none }] :=
  ((c5_processing_order ([] : List (RQ.QueueItem String))).2
    _ _ _ rfl rfl rfl rfl rfl rfl (by decide)).1

/-! ### The resilient API client (src/services/api.ts)

`ApiService.executeRequest` (lines 199-304) first consults the response
cache for GET requests (lines 200-209), then short-circuits to the
offline queue when the client believes itself offline or the circuit is
open (lines 211-224), and otherwise attempts the network.  A successful
attempt is modeled directly: the response interceptor (lines 100-107)
resets the failure counter and closes the circuit, and GET responses
are written to the cache (lines 231-238).  Failed attempts that carry a
response drive `updateCircuitBreakerStatus` (lines 152-169); the 30 s
auto-reset `setTimeout` is embedded as an explicit `circuitResetFire`
transition that takes effect once the recorded deadline has passed.
Times are integers (JavaScript `Date.now()`). -/

namespace Api

structure CacheEntry (V : Type) where
  data : V
  timestamp : Int
deriving DecidableEq

structure Request where
  method : String
  url : String
  params : String
deriving DecidableEq

structure ApiState (V : Type) where
  cache : List (String × CacheEntry V)
  isOnline : Bool
  circuitOpen : Bool
  failureCount : Nat
  lastFailureTime : Int
  resetAt : Option Int
  requestQueue : List (Request × Int × Int)
deriving DecidableEq

def initialApiState (V : Type) : ApiState V :=
  { cache := [], isOnline := true, circuitOpen := false, failureCount := 0,
    lastFailureTime := 0, resetAt := none, requestQueue := [] }

/-- Line 202: the cache key is method, url and serialized params. -/
def cacheKey (r : Request) : String :=
  r.method ++ ":" ++ r.url ++ ":" ++ r.params

/-- Line 201: only GET requests with a url consult the cache. -/
def isCacheableGet (r : Request) : Bool :=
  jsToLower r.method == "get" && r.url != ""

/-- Lines 200-209: a cache hit is an entry younger than the TTL. -/
def cacheLookup {V : Type} (ttl : Int) (s : ApiState V) (r : Request) (now : Int) :
    Option V :=
  if isCacheableGet r then
    match mapGet s.cache (cacheKey r) with
    | some entry => if now - entry.timestamp < ttl then some entry.data else none
    | none => none
  else none

inductive ExecOutcome (V : Type) where
  | fromCache (v : V)
  | queued
  | attempted (v : V)
deriving DecidableEq

/-- `executeRequest`, head portion plus a first-try success:
cache hit returns immediately with no state change; otherwise an
offline client or an open circuit queues the request without a network
attempt; otherwise the request is attempted (success resets the
failure counter, closes the circuit, and caches GET responses). -/
def executeRequest {V : Type} (ttl : Int) (s : ApiState V) (req : Request)
    (now : Int) (priority : Int) (netResult : V) : ExecOutcome V × ApiState V :=
  match cacheLookup ttl s req now with
  | some v => (.fromCache v, s)
  | none =>
    if !s.isOnline || s.circuitOpen then
      (.queued, { s with requestQueue := s.requestQueue ++ [(req, now, priority)] })
    else
      let s2 := { s with failureCount := 0, circuitOpen := false }
      let s3 :=
        if isCacheableGet req then
          { s2 with
            cache := mapSet s2.cache (cacheKey req) { data := netResult, timestamp := now } }
        else s2
      (.attempted netResult, s3)

/-- Lines 152-169: every failed response increments the failure count;
reaching 5 with a closed circuit opens it and schedules the automatic
reset 30 seconds later. -/
def updateCircuitBreakerStatus {V : Type} (now : Int) (s : ApiState V) : ApiState V :=
  let fc := s.failureCount + 1
  if 5 ≤ fc ∧ s.circuitOpen = false then
    { s with failureCount := fc, lastFailureTime := now, circuitOpen := true,
             resetAt := some (now + 30000) }
  else
    { s with failureCount := fc, lastFailureTime := now }

/-- Lines 163-167: once the scheduled 30 s deadline has elapsed the
timer closes the circuit and resets the failure counter. -/
def circuitResetFire {V : Type} (now : Int) (s : ApiState V) : ApiState V :=
  match s.resetAt with
  | some d =>
    if d ≤ now then
      { s with circuitOpen := false, failureCount := 0, resetAt := none }
    else s
  | none => s

/-- Line 70: `cacheTTL` defaults to one minute. -/
def defaultCacheTTL : Int := 60000

/-- Run a sequence of calls, collecting the outcome of each. -/
def execSeq {V : Type} (ttl : Int) (s : ApiState V) :
    List (Request × Int × Int × V) → ApiState V × List (ExecOutcome V)
  | [] => (s, [])
  | (req, now, pr, v) :: rest =>
    let r := executeRequest ttl s req now pr v
    let rr := execSeq ttl r.2 rest
    (rr.1, r.1 :: rr.2)

/-- Number of underlying network requests in a list of outcomes. -/
def countAttempts {V : Type} (l : List (ExecOutcome V)) : Nat :=
  l.countP (fun o => match o with | .attempted _ => true | _ => false)

theorem cacheLookup_of_empty {V : Type} (ttl : Int) (s : ApiState V)
    (r : Request) (now : Int) (h : s.cache = []) :
    cacheLookup ttl s r now = none := by
  unfold cacheLookup mapGet
  rw [h]
  simp

end Api

/-- Claim C2: from a closed circuit, five consecutive failed attempts
open the circuit and schedule the 30 s reset; a sixth call is appended
to the internal request queue without a network attempt; once the 30 s
deadline has elapsed (with no further failures) the circuit is closed,
the failure counter is 0, and a new call attempts the network. -/
theorem c2_circuit_breaker {V : Type} (t1 t2 t3 t4 t5 tq tr te : Int)
    (pr1 pr2 : Int) (req1 req2 : Api.Request) (v1 v2 : V)
    (hte : t5 + 30000 ≤ te) :
    Api.updateCircuitBreakerStatus t5 (Api.updateCircuitBreakerStatus t4
        (Api.updateCircuitBreakerStatus t3 (Api.updateCircuitBreakerStatus t2
          (Api.updateCircuitBreakerStatus t1 (Api.initialApiState V))))) =
      { cache := [], isOnline := true, circuitOpen := true, failureCount := 5,
        lastFailureTime := t5, resetAt := some (t5 + 30000), requestQueue := [] }
    ∧ Api.executeRequest Api.defaultCacheTTL
        { cache := [], isOnline := true, circuitOpen := true, failureCount := 5,
          lastFailureTime := t5, resetAt := some (t5 + 30000), requestQueue := [] }
        req1 tq pr1 v1 =
      (.queued,
       { cache := [], isOnline := true, circuitOpen := true, failureCount := 5,
         lastFailureTime := t5, resetAt := some (t5 + 30000),
         requestQueue := [(req1, tq, pr1)] })
    ∧ Api.circuitResetFire te
        ({ cache := [], isOnline := true, circuitOpen := true, failureCount := 5,
           lastFailureTime := t5, resetAt := some (t5 + 30000),
           requestQueue := [(req1, tq, pr1)] } : Api.ApiState V) =
      { cache := [], isOnline := true, circuitOpen := false, failureCount := 0,
        lastFailureTime := t5, resetAt := none, requestQueue := [(req1, tq, pr1)] }
    ∧ (Api.executeRequest Api.defaultCacheTTL
        { cache := [], isOnline := true, circuitOpen := false, failureCount := 0,
          lastFailureTime := t5, resetAt := none, requestQueue := [(req1, tq, pr1)] }
        req2 tr pr2 v2).1 = .attempted v2 := by
  refine ⟨?_, ?_, ?_, ?_⟩
  · simp [Api.updateCircuitBreakerStatus, Api.initialApiState]
  · unfold Api.executeRequest
    rw [Api.cacheLookup_of_empty _ _ _ _ rfl]
    simp
  · unfold Api.circuitResetFire
    simp only
    rw [if_pos hte]
  · unfold Api.executeRequest
    rw [Api.cacheLookup_of_empty _ _ _ _ rfl]
    simp

/-- Witness for C2 at concrete times: failures at 1..5, sixth call at 6
queued, reset deadline 30005 elapsed at 30005, new call at 30006
attempted. -/
theorem c2_circuit_breaker_witness :
    (Api.executeRequest Api.defaultCacheTTL
        { cache := ([] : List (String × Api.CacheEntry String)), isOnline := true,
          circuitOpen := true, failureCount := 5, lastFailureTime := 5,
          resetAt := some (5 + 30000), requestQueue := [] }
        { method := "post", url := "/projects/p/sync", params := "" } 6 1 "ok").1 =
      .queued
    ∧ (Api.executeRequest Api.defaultCacheTTL
        { cache := ([] : List (String × Api.CacheEntry String)), isOnline := true,
          circuitOpen := false, failureCount := 0, lastFailureTime := 5,
          resetAt := none,
          requestQueue := [({ method := "post", url := "/projects/p/sync", params := "" }, 6, 1)] }
        { method := "post", url := "/projects/p/sync", params := "" } 30006 1 "ok").1 =
      .attempted "ok" := by
  have h := c2_circuit_breaker (V := String) 1 2 3 4 5 6 30006 30005 1 1
      { method := "post", url := "/projects/p/sync", params := "" }
      { method := "post", url := "/projects/p/sync", params := "" }
      "ok" "ok" (by decide)
  exact ⟨by rw [h.2.1], h.2.2.2⟩

/-- Claim C7: two executions of the same GET request within the cache
TTL issue exactly one network request (the second returns the cached
value with no state change), and a third execution after the TTL has
expired issues a second network request. -/
theorem c7_cache_ttl {V : Type} (ttl : Int) (req : Api.Request) (v1 v2 v3 : V)
    (t1 t2 t3 pr : Int)
    (hget : Api.isCacheableGet req = true)
    (h2 : t2 - t1 < ttl)
    (h3 : ttl ≤ t3 - t1) :
    (Api.execSeq ttl (Api.initialApiState V)
        [(req, t1, pr, v1), (req, t2, pr, v2), (req, t3, pr, v3)]).2 =
      [.attempted v1, .fromCache v1, .attempted v3]
    ∧ Api.countAttempts
        (Api.execSeq ttl (Api.initialApiState V) [(req, t1, pr, v1), (req, t2, pr, v2)]).2 = 1
    ∧ Api.countAttempts
        (Api.execSeq ttl (Api.initialApiState V)
          [(req, t1, pr, v1), (req, t2, pr, v2), (req, t3, pr, v3)]).2 = 2 := by
  have hc1 : Api.executeRequest ttl (Api.initialApiState V) req t1 pr v1 =
      (.attempted v1,
       { cache := [(Api.cacheKey req, { data := v1, timestamp := t1 })], isOnline := true,
         circuitOpen := false, failureCount := 0, lastFailureTime := 0, resetAt := none,
         requestQueue := [] }) := by
    unfold Api.executeRequest
    rw [Api.cacheLookup_of_empty _ _ _ _ rfl]
    simp [Api.initialApiState, hget, mapSet]
  have hfind : mapGet [(Api.cacheKey req, ({ data := v1, timestamp := t1 } : Api.CacheEntry V))]
      (Api.cacheKey req) = some ({ data := v1, timestamp := t1 } : Api.CacheEntry V) := by
    simp [mapGet, List.find?]
  have hc2 : Api.executeRequest ttl
      { cache := [(Api.cacheKey req, { data := v1, timestamp := t1 })], isOnline := true,
        circuitOpen := false, failureCount := 0, lastFailureTime := 0, resetAt := none,
        requestQueue := [] } req t2 pr v2 =
      (.fromCache v1,
       { cache := [(Api.cacheKey req, { data := v1, timestamp := t1 })], isOnline := true,
         circuitOpen := false, failureCount := 0, lastFailureTime := 0, resetAt := none,
         requestQueue := [] }) := by
    unfold Api.executeRequest Api.cacheLookup
    rw [if_pos hget, hfind]
    simp [h2]
  have hc3 : (Api.executeRequest ttl
      { cache := [(Api.cacheKey req, { data := v1, timestamp := t1 })], isOnline := true,
        circuitOpen := false, failureCount := 0, lastFailureTime := 0, resetAt := none,
        requestQueue := [] } req t3 pr v3).1 = .attempted v3 := by
    unfold Api.executeRequest Api.cacheLookup
    rw [if_pos hget, hfind]
    simp [show ¬(t3 - t1 < ttl) from by omega, hget]
  refine ⟨?_, ?_, ?_⟩ <;>
    simp [Api.execSeq, Api.countAttempts, hc1, hc2, hc3]

/-- Witness for C7: calls at 0 ms and 1000 ms share one network
request; the call at 60000 ms (TTL expired) issues the second. -/
theorem c7_cache_ttl_witness :
    (Api.execSeq 60000 (Api.initialApiState String)
        [({ method := "get", url := "/projects", params := "ps" }, 0, 1, "r1"),
         ({ method := "get", url := "/projects", params := "ps" }, 1000, 1, "r2"),
         ({ method := "get", url := "/projects", params := "ps" }, 60000, 1, "r3")]).2 =
      [.attempted "r1", .fromCache "r1", .attempted "r3"] :=
  (c7_cache_ttl 60000 { method := "get", url := "/projects", params := "ps" }
    "r1" "r2" "r3" 0 1000 60000 1 (by decide) (by decide) (by decide)).1

/-- Claim C10: for a GET request whose cache entry is younger than the
TTL, `executeRequest` returns the cached value with the state unchanged
(nothing queued, no network attempt), even when the client believes
itself offline or the circuit is open: the cache lookup precedes the
offline/circuit-open short-circuit. -/
theorem c10_cache_precedes_offline {V : Type} (ttl : Int) (s : Api.ApiState V)
    (req : Api.Request) (now pr : Int) (v : V) (entry : Api.CacheEntry V)
    (hget : Api.isCacheableGet req = true)
    (hfound : mapGet s.cache (Api.cacheKey req) = some entry)
    (hfresh : now - entry.timestamp < ttl)
    (hoff : s.isOnline = false ∨ s.circuitOpen = true) :
    Api.executeRequest ttl s req now pr v = (.fromCache entry.data, s) := by
  unfold Api.executeRequest Api.cacheLookup
  rw [if_pos hget, hfound]
  simp [hfresh]

/-- Witness for C10: an offline client with a fresh cache entry serves
the GET from the cache and leaves the request queue empty. -/
theorem c10_cache_precedes_offline_witness :
    Api.executeRequest 60000
        ({ cache := [("get:/p:x", { data := "r", timestamp := 0 })], isOnline := false,
           circuitOpen := false, failureCount := 0, lastFailureTime := 0, resetAt := none,
           requestQueue := [] } : Api.ApiState String)
        { method := "get", url := "/p", params := "x" } 1 1 "net" =
      (.fromCache "r",
       { cache := [("get:/p:x", { data := "r", timestamp := 0 })], isOnline := false,
         circuitOpen := false, failureCount := 0, lastFailureTime := 0, resetAt := none,
         requestQueue := [] }) :=
  c10_cache_precedes_offline 60000 _ _ 1 1 "net" { data := "r", timestamp := 0 }
    (by decide) (by decide) (by decide) (Or.inl rfl)

/-! ### The file-change monitor

The current `FileWatcher` class (the revision implementing
`IFileWatcher` from src/types/fileWatcher.ts, constructed with
`FileWatcherOptions` by the watch command; in the repository snapshot
it is the second compilation unit of src/services/configService.ts,
lines 164-575 of that file) keeps a pending-change `Map` keyed by
relative path and a `fileCache` `Map` from path to last accepted
content hash.  `handleFileChange` records the latest raw event kind per
path (deleting the cached hash on `unlink`) and (re)starts the debounce
timer; when the batch timer fires, `processQueue` reads and hashes each
pending add/change file, drops those whose hash equals the cached one,
pushes `unlink` records in a first collection loop and everything not
skipped in a second, updates the cache, clears the queue and emits the
batch.  Content classification and hashing (utils/hash.ts `processFile`)
are abstracted as the oracle parameters `hashFn`/`isBin`, and the
filesystem at batch time as `disk`. -/

namespace FW

inductive ChangeType where
  | add
  | change
  | unlink
deriving DecidableEq, Repr

structure FileChange where
  path : String
  type : ChangeType
  content : Option String := none
  hash : Option String := none
  isBinary : Option Bool := none
deriving DecidableEq, Repr

structure WatcherState where
  queue : List (String × FileChange)
  fileCache : List (String × String)
  paused : Bool
deriving DecidableEq, Repr

def initialWatcherState : WatcherState :=
  { queue := [], fileCache := [], paused := false }

/-- configService.ts lines 324-361: raw events are dropped while
paused; an `unlink` purges the cached hash; the latest event kind wins
in the pending map. -/
def handleFileChange (s : WatcherState) (relativePath : String) (t : ChangeType) :
    WatcherState :=
  if s.paused then s
  else
    let change : FileChange := { path := relativePath, type := t }
    let cache := if t = .unlink then mapDelete s.fileCache relativePath else s.fileCache
    { s with fileCache := cache, queue := mapSet s.queue relativePath change }

/-- configService.ts lines 486-505: read and classify the file at
batch-processing time; a vanished file leaves the change untouched. -/
def processFileChange (hashFn : String → String) (isBin : String → Bool)
    (disk : String → Option String) (relativePath : String) (c : FileChange) :
    FileChange :=
  match disk relativePath with
  | none => c
  | some content =>
    { c with content := some content, hash := some (hashFn content),
             isBinary := some (isBin relativePath) }

def enrichEntry (hashFn : String → String) (isBin : String → Bool)
    (disk : String → Option String) (e : String × FileChange) :
    String × FileChange :=
  if e.snd.type = .unlink then e
  else (e.fst, processFileChange hashFn isBin disk e.fst e.snd)

/-- The second collection loop of `processQueue` (configService.ts
lines 392-407): skip an add/change whose hash equals the cached hash,
record new hashes, push everything else. -/
def emitPass (entries : List (String × FileChange)) (cache : List (String × String)) :
    List (String × String) × List FileChange :=
  match entries with
  | [] => (cache, [])
  | (k, c) :: rest =>
    if c.type = .add ∨ c.type = .change then
      match c.hash with
      | some h =>
        if mapGet cache k = some h then emitPass rest cache
        else
          let r := emitPass rest (mapSet cache k h)
          (r.1, c :: r.2)
      | none =>
        let r := emitPass rest cache
        (r.1, c :: r.2)
    else
      let r := emitPass rest cache
      (r.1, c :: r.2)

/-- configService.ts lines 366-418: enrich pending add/change entries,
collect `unlink` records in the first loop, run the hash-filtering
second loop, clear the queue and emit the collected batch. -/
def processQueue (hashFn : String → String) (isBin : String → Bool)
    (disk : String → Option String) (s : WatcherState) :
    WatcherState × List FileChange :=
  if s.queue.isEmpty then (s, [])
  else
    ({ s with
        queue := ([] : List (String × FileChange)),
        fileCache := (emitPass (s.queue.map (enrichEntry hashFn isBin disk)) s.fileCache).1 },
     (((s.queue.map (enrichEntry hashFn isBin disk)).filter
           (fun e => e.snd.type == ChangeType.unlink)).map Prod.snd)
       ++ (emitPass (s.queue.map (enrichEntry hashFn isBin disk)) s.fileCache).2)

theorem enrichEntry_fst (hashFn : String → String) (isBin : String → Bool)
    (disk : String → Option String) (e : String × FileChange) :
    (enrichEntry hashFn isBin disk e).fst = e.fst := by
  unfold enrichEntry
  split_ifs <;> rfl

theorem enrichEntry_path (hashFn : String → String) (isBin : String → Bool)
    (disk : String → Option String) (e : String × FileChange) :
    (enrichEntry hashFn isBin disk e).snd.path = e.snd.path := by
  unfold enrichEntry processFileChange
  split_ifs
  · rfl
  · cases disk e.fst <;> rfl

theorem enrichEntry_type (hashFn : String → String) (isBin : String → Bool)
    (disk : String → Option String) (e : String × FileChange) :
    (enrichEntry hashFn isBin disk e).snd.type = e.snd.type := by
  unfold enrichEntry processFileChange
  split_ifs
  · rfl
  · cases disk e.fst <;> rfl

end FW

theorem find?_upsert_map_ne {β : Type} (m : List (String × β)) (k : String) (v : β)
    (p : String) (h : k ≠ p) :
    List.find? (fun e => e.fst == p) (m.map (fun e => if e.fst == k then (k, v) else e)) =
      List.find? (fun e => e.fst == p) m := by
  induction m with
  | nil => rfl
  | cons e m ih =>
    have h1 : (k == p) = false := by simpa using h
    simp only [List.map_cons, List.find?]
    by_cases hek : (e.fst == k) = true
    · have h2 : (e.fst == p) = false := by
        have he : e.fst = k := by simpa using hek
        simpa [he] using h
      rw [if_pos hek]
      simp only [List.find?, h1, h2]
      exact ih
    · rw [if_neg hek]
      cases hep : (e.fst == p)
      · exact ih
      · rfl

theorem mapGet_mapSet_ne {β : Type} (m : List (String × β)) (k : String) (v : β)
    (p : String) (h : k ≠ p) : mapGet (mapSet m k v) p = mapGet m p := by
  unfold mapSet mapGet
  split_ifs with hany
  · exact congrArg (Option.map Prod.snd) (find?_upsert_map_ne m k v p h)
  · rw [List.find?_append]
    have h1 : (k == p) = false := by simpa using h
    simp [List.find?, h1]

namespace FW

theorem mem_snd_eq_of_mapGet_nodup {β : Type} (m : List (String × β)) (p : String)
    (v : β) (hn : (m.map Prod.fst).Nodup) (hg : mapGet m p = some v) :
    ∀ e ∈ m, e.fst = p → e.snd = v := by
  induction m with
  | nil => intro e he; cases he
  | cons a m ih =>
    intro e he hfst
    unfold mapGet at hg
    rw [List.find?_cons] at hg
    rcases List.mem_cons.mp he with heq | hmem
    · subst heq
      rw [show (e.fst == p) = true from by simpa using hfst] at hg
      simpa using hg
    · by_cases hap : (a.fst == p) = true
      · exfalso
        have hap2 : a.fst = p := by simpa using hap
        have : p ∈ m.map Prod.fst := by
          rw [← hfst]
          exact List.mem_map_of_mem Prod.fst hmem
        rw [List.map_cons, List.nodup_cons, hap2] at hn
        exact hn.1 this
      · rw [show (a.fst == p) = false from by simpa using hap] at hg
        exact ih (by rw [List.map_cons, List.nodup_cons] at hn; exact hn.2) hg e hmem hfst

theorem emitPass_filter_of_cached (p hp : String) :
    ∀ (entries : List (String × FileChange)) (cache : List (String × String)),
      (∀ e ∈ entries, e.snd.path = e.fst) →
      (∀ e ∈ entries, e.fst = p →
        (e.snd.type = .add ∨ e.snd.type = .change) ∧ e.snd.hash = some hp) →
      mapGet cache p = some hp →
      ((emitPass entries cache).2.filter (fun r => r.path == p)) = [] := by
  intro entries
  induction entries with
  | nil => intro cache _ _ _; rfl
  | cons e rest ih =>
    obtain ⟨k, c⟩ := e
    intro cache hwf hpe hcache
    have hwfR : ∀ e ∈ rest, e.snd.path = e.fst :=
      fun e he => hwf e (List.mem_cons_of_mem _ he)
    have hpeR : ∀ e ∈ rest, e.fst = p →
        (e.snd.type = .add ∨ e.snd.type = .change) ∧ e.snd.hash = some hp :=
      fun e he => hpe e (List.mem_cons_of_mem _ he)
    by_cases hk : k = p
    · subst hk
      obtain ⟨hty, hhash⟩ := hpe (k, c) (List.mem_cons_self _ _) rfl
      simp only [emitPass]
      rw [if_pos hty, hhash]
      dsimp only
      rw [if_pos hcache]
      exact ih cache hwfR hpeR hcache
    · have hpath : c.path = k := hwf (k, c) (List.mem_cons_self _ _)
      have hpathp : (c.path == p) = false := by simp [hpath, hk]
      simp only [emitPass]
      by_cases hty : c.type = .add ∨ c.type = .change
      · rw [if_pos hty]
        cases hh : c.hash with
        | some h =>
          dsimp only
          by_cases hhit : mapGet cache k = some h
          · rw [if_pos hhit]
            exact ih cache hwfR hpeR hcache
          · rw [if_neg hhit]
            simp only [List.filter_cons, hpathp, Bool.false_eq_true, if_false]
            exact ih (mapSet cache k h) hwfR hpeR
              (by rw [mapGet_mapSet_ne cache k h p hk]; exact hcache)
        | none =>
          dsimp only
          simp only [List.filter_cons, hpathp, Bool.false_eq_true, if_false]
          exact ih cache hwfR hpeR hcache
      · rw [if_neg hty]
        dsimp only
        simp only [List.filter_cons, hpathp, Bool.false_eq_true, if_false]
        exact ih cache hwfR hpeR hcache

theorem firstPass_filter_of_not_unlink (p : String)
    (entries : List (String × FileChange))
    (hwf : ∀ e ∈ entries, e.snd.path = e.fst)
    (hpe : ∀ e ∈ entries, e.fst = p → (e.snd.type = .add ∨ e.snd.type = .change)) :
    (((entries.filter (fun e => e.snd.type == ChangeType.unlink)).map Prod.snd).filter
      (fun r => r.path == p)) = [] := by
  rw [List.filter_eq_nil]
  intro r hr hcon
  obtain ⟨e, he, rfl⟩ := List.mem_map.mp hr
  have he2 := List.mem_filter.mp he
  have hpath := hwf e he2.1
  have hfst : e.fst = p := by
    rw [← hpath]
    simpa using hcon
  have hunl : e.snd.type = .unlink := by simpa using he2.2
  rcases hpe e he2.1 hfst with h | h <;> rw [hunl] at h <;> cases h

end FW

/-- Claim C1: if a watched file pending as add/change hashes, at batch
time, to exactly the hash previously recorded for its path, the batch
emitted by `processQueue` contains no record for that path (no-op
writes are suppressed by the comparison against the known hash). -/
theorem c1_noop_write_suppressed (hashFn : String → String) (isBin : String → Bool)
    (disk : String → Option String) (s : FW.WatcherState) (p : String)
    (c : FW.FileChange) (content : String)
    (hkeys : (s.queue.map Prod.fst).Nodup)
    (hwf : ∀ e ∈ s.queue, e.snd.path = e.fst)
    (hq : mapGet s.queue p = some c)
    (hty : c.type = .add ∨ c.type = .change)
    (hdisk : disk p = some content)
    (hcache : mapGet s.fileCache p = some (hashFn content)) :
    ((FW.processQueue hashFn isBin disk s).2.filter (fun r => r.path == p)) = [] := by
  have hne : s.queue.isEmpty = false := by
    cases hqq : s.queue
    · rw [hqq] at hq
      simp [mapGet] at hq
    · rfl
  unfold FW.processQueue
  rw [if_neg (by simp [hne])]
  rw [List.filter_append]
  have hwfE : ∀ e ∈ s.queue.map (FW.enrichEntry hashFn isBin disk),
      e.snd.path = e.fst := by
    intro e he
    obtain ⟨e0, he0, rfl⟩ := List.mem_map.mp he
    rw [FW.enrichEntry_path, FW.enrichEntry_fst]
    exact hwf e0 he0
  have huniq := FW.mem_snd_eq_of_mapGet_nodup s.queue p c hkeys hq
  have hPE : ∀ e ∈ s.queue.map (FW.enrichEntry hashFn isBin disk), e.fst = p →
      (e.snd.type = .add ∨ e.snd.type = .change)
      ∧ e.snd.hash = some (hashFn content) := by
    intro e he hf
    obtain ⟨e0, he0, rfl⟩ := List.mem_map.mp he
    rw [FW.enrichEntry_fst] at hf
    have hc0 : e0.snd = c := huniq e0 he0 hf
    have hnotun : ¬(e0.snd.type = .unlink) := by
      rw [hc0]
      rcases hty with h | h <;> rw [h] <;> intro hcon <;> cases hcon
    constructor
    · rw [FW.enrichEntry_type, hc0]
      exact hty
    · unfold FW.enrichEntry
      rw [if_neg hnotun]
      unfold FW.processFileChange
      rw [hf, hdisk]
  rw [FW.firstPass_filter_of_not_unlink p _ hwfE (fun e he hf => (hPE e he hf).1),
    FW.emitPass_filter_of_cached p (hashFn content) _ s.fileCache hwfE hPE hcache]
  rfl

/-- Witness for C1: a pending change for `a.txt` whose current content
hashes to the recorded hash is dropped from the emitted batch. -/
theorem c1_noop_write_suppressed_witness :
    ((FW.processQueue (fun c => c) (fun _ => false)
        (fun q => if q == "a.txt" then some "hello" else none)
        { queue := [("a.txt", { path := "a.txt", type := .change })],
          fileCache := [("a.txt", "hello")], paused := false }).2.filter
      (fun r => r.path == "a.txt")) = [] :=
  c1_noop_write_suppressed (fun c => c) (fun _ => false)
    (fun q => if q == "a.txt" then some "hello" else none)
    { queue := [("a.txt", { path := "a.txt", type := .change })],
      fileCache := [("a.txt", "hello")], paused := false }
    "a.txt" { path := "a.txt", type := .change } "hello"
    (by decide) (by decide) (by decide) (Or.inr rfl) (by decide) (by decide)

namespace FW

theorem mapSet_of_get_none {β : Type} (m : List (String × β)) (k : String) (v : β)
    (h : mapGet m k = none) : mapSet m k v = m ++ [(k, v)] := by
  have hf : List.find? (fun e => e.fst == k) m = none := by
    cases hfind : List.find? (fun e => e.fst == k) m
    · rfl
    · unfold mapGet at h
      rw [hfind] at h
      cases h
  have hall := List.find?_eq_none.mp hf
  unfold mapSet
  rw [if_neg]
  intro hany
  obtain ⟨e, he, hek⟩ := List.any_eq_true.mp hany
  exact hall e he hek

theorem mem_fst_ne_of_get_none {β : Type} (m : List (String × β)) (k : String)
    (h : mapGet m k = none) : ∀ e ∈ m, (e.fst == k) = false := by
  intro e he
  have hf : List.find? (fun e => e.fst == k) m = none := by
    cases hfind : List.find? (fun e => e.fst == k) m
    · rfl
    · unfold mapGet at h
      rw [hfind] at h
      cases h
  have := List.find?_eq_none.mp hf e he
  simpa using this

theorem mapSet_update_last {β : Type} (m : List (String × β)) (k : String) (v w : β)
    (h : ∀ e ∈ m, (e.fst == k) = false) :
    mapSet (m ++ [(k, v)]) k w = m ++ [(k, w)] := by
  unfold mapSet
  rw [if_pos]
  · rw [List.map_append]
    congr 1
    · conv_rhs => rw [← List.map_id m]
      apply List.map_congr_left
      intro e he
      rw [if_neg (by simp [h e he])]
      rfl
    · simp
  · simp [List.any_append]

theorem add_unlink_queue (s : WatcherState) (p : String)
    (hp : s.paused = false) (hfresh : mapGet s.queue p = none) :
    handleFileChange (handleFileChange s p .add) p .unlink =
      { queue := s.queue ++ [(p, { path := p, type := .unlink })],
        fileCache := mapDelete s.fileCache p,
        paused := s.paused } := by
  have hall := mem_fst_ne_of_get_none s.queue p hfresh
  unfold handleFileChange
  rw [if_neg (by simp [hp])]
  simp only
  rw [if_neg (by simp [hp])]
  simp only
  rw [mapSet_of_get_none s.queue p _ hfresh,
    mapSet_update_last s.queue p _ _ hall]
  simp

theorem emitPass_filter_unlink (p : String) (c0 : FileChange)
    (hc0 : c0.type = .unlink) :
    ∀ (entries : List (String × FileChange)) (cache : List (String × String)),
      (∀ e ∈ entries, e.snd.path = e.fst) →
      (∀ e ∈ entries, e.fst = p → e.snd = c0) →
      ((emitPass entries cache).2.filter (fun r => r.path == p)) =
        (entries.filter (fun e => e.fst == p)).map Prod.snd := by
  intro entries
  induction entries with
  | nil => intro cache _ _; rfl
  | cons e rest ih =>
    obtain ⟨k, c⟩ := e
    intro cache hwf hpe
    have hwfR : ∀ e ∈ rest, e.snd.path = e.fst :=
      fun e he => hwf e (List.mem_cons_of_mem _ he)
    have hpeR : ∀ e ∈ rest, e.fst = p → e.snd = c0 :=
      fun e he => hpe e (List.mem_cons_of_mem _ he)
    by_cases hk : k = p
    · subst hk
      have hcc : c = c0 := hpe (k, c) (List.mem_cons_self _ _) rfl
      subst hcc
      have hnotac : ¬(c.type = .add ∨ c.type = .change) := by
        rw [hc0]
        rintro (hcon | hcon) <;> cases hcon
      have hpath : c.path = k := hwf (k, c) (List.mem_cons_self _ _)
      simp only [emitPass]
      rw [if_neg hnotac]
      dsimp only
      simp only [List.filter_cons, hpath, beq_self_eq_true, if_true]
      rw [ih cache hwfR hpeR]
      rfl
    · have hpath : c.path = k := hwf (k, c) (List.mem_cons_self _ _)
      have hpathp : (c.path == p) = false := by simp [hpath, hk]
      have hkp : (k == p) = false := by simpa using hk
      simp only [emitPass]
      by_cases hty : c.type = .add ∨ c.type = .change
      · rw [if_pos hty]
        cases hh : c.hash with
        | some h =>
          dsimp only
          by_cases hhit : mapGet cache k = some h
          · rw [if_pos hhit]
            simp only [List.filter_cons, hkp, Bool.false_eq_true, if_false]
            exact ih cache hwfR hpeR
          · rw [if_neg hhit]
            simp only [List.filter_cons, hpathp, hkp, Bool.false_eq_true, if_false]
            exact ih (mapSet cache k h) hwfR hpeR
        | none =>
          dsimp only
          simp only [List.filter_cons, hpathp, hkp, Bool.false_eq_true, if_false]
          exact ih cache hwfR hpeR
      · rw [if_neg hty]
        dsimp only
        simp only [List.filter_cons, hpathp, hkp, Bool.false_eq_true, if_false]
        exact ih cache hwfR hpeR

theorem firstPass_filter_unlink (p : String) (c0 : FileChange)
    (hc0 : c0.type = .unlink) (entries : List (String × FileChange))
    (hwf : ∀ e ∈ entries, e.snd.path = e.fst)
    (hpe : ∀ e ∈ entries, e.fst = p → e.snd = c0) :
    (((entries.filter (fun e => e.snd.type == ChangeType.unlink)).map Prod.snd).filter
      (fun r => r.path == p)) =
      (entries.filter (fun e => e.fst == p)).map Prod.snd := by
  induction entries with
  | nil => rfl
  | cons e rest ih =>
    obtain ⟨k, c⟩ := e
    have hwfR : ∀ e ∈ rest, e.snd.path = e.fst :=
      fun e he => hwf e (List.mem_cons_of_mem _ he)
    have hpeR : ∀ e ∈ rest, e.fst = p → e.snd = c0 :=
      fun e he => hpe e (List.mem_cons_of_mem _ he)
    have hpath : c.path = k := hwf (k, c) (List.mem_cons_self _ _)
    by_cases hk : k = p
    · subst hk
      have hcc : c = c0 := hpe (k, c) (List.mem_cons_self _ _) rfl
      subst hcc
      simp only [List.filter_cons, hc0, beq_self_eq_true, if_true, List.map_cons,
        hpath, if_pos]
      rw [ih hwfR hpeR]
    · have hpathp : (c.path == p) = false := by simp [hpath, hk]
      have hkp : (k == p) = false := by simpa using hk
      cases hun : (c.type == ChangeType.unlink)
      · simp only [List.filter_cons, hun, hkp, Bool.false_eq_true, if_false]
        exact ih hwfR hpeR
      · simp only [List.filter_cons, hun, hkp, if_true, List.map_cons, hpathp,
          Bool.false_eq_true, if_false]
        exact ih hwfR hpeR

end FW

/-- Counterexample to C6 as stated: for a path never seen before, a raw
add followed by an unlink within the same debounce window does NOT
produce an empty batch for that path — `processQueue` emits unlink
records for it. -/
theorem c6_add_unlink_counterexample :
    ¬(((FW.processQueue (fun c => c) (fun _ => false) (fun _ => none)
          (FW.handleFileChange
            (FW.handleFileChange FW.initialWatcherState "src/a.txt" .add)
            "src/a.txt" .unlink)).2.filter (fun r => r.path == "src/a.txt")) = []) := by
  decide

/-- Claim C6 as amended: for a path never previously seen, an add
followed by an unlink within one debounce window does not cancel;
the unlink overwrites the add in the pending map and the emitted batch
contains exactly two identical `unlink` records for the path (the
record is collected both by the first loop over pending changes, which
pushes unlink entries, and again by the unconditional push of the
second loop of `processQueue`). -/
theorem c6_add_unlink_emits_removed (hashFn : String → String)
    (isBin : String → Bool) (disk : String → Option String)
    (s : FW.WatcherState) (p : String)
    (hp : s.paused = false)
    (hwf : ∀ e ∈ s.queue, e.snd.path = e.fst)
    (hfresh : mapGet s.queue p = none) :
    ((FW.processQueue hashFn isBin disk
        (FW.handleFileChange (FW.handleFileChange s p .add) p .unlink)).2.filter
      (fun r => r.path == p)) =
      [{ path := p, type := .unlink }, { path := p, type := .unlink }] := by
  rw [FW.add_unlink_queue s p hp hfresh]
  have hall := FW.mem_fst_ne_of_get_none s.queue p hfresh
  unfold FW.processQueue
  rw [if_neg (by simp)]
  rw [List.filter_append]
  have hmap : (s.queue ++ [(p, ({ path := p, type := .unlink } : FW.FileChange))]).map
        (FW.enrichEntry hashFn isBin disk) =
      s.queue.map (FW.enrichEntry hashFn isBin disk)
        ++ [(p, ({ path := p, type := .unlink } : FW.FileChange))] := by
    rw [List.map_append]
    congr 1
  have hwfE : ∀ e ∈ (s.queue ++ [(p, ({ path := p, type := .unlink } : FW.FileChange))]).map
      (FW.enrichEntry hashFn isBin disk), e.snd.path = e.fst := by
    intro e he
    obtain ⟨e0, he0, rfl⟩ := List.mem_map.mp he
    rw [FW.enrichEntry_path, FW.enrichEntry_fst]
    rcases List.mem_append.mp he0 with h0 | h0
    · exact hwf e0 h0
    · rcases List.mem_singleton.mp h0 with rfl
      rfl
  have hpeE : ∀ e ∈ (s.queue ++ [(p, ({ path := p, type := .unlink } : FW.FileChange))]).map
      (FW.enrichEntry hashFn isBin disk), e.fst = p →
      e.snd = ({ path := p, type := .unlink } : FW.FileChange) := by
    intro e he hf
    obtain ⟨e0, he0, rfl⟩ := List.mem_map.mp he
    rw [FW.enrichEntry_fst] at hf
    rcases List.mem_append.mp he0 with h0 | h0
    · exact absurd (by simpa using hf) (by simpa using hall e0 h0)
    · rcases List.mem_singleton.mp h0 with rfl
      rfl
  rw [FW.firstPass_filter_unlink p ({ path := p, type := .unlink } : FW.FileChange) rfl _
      hwfE hpeE,
    FW.emitPass_filter_unlink p ({ path := p, type := .unlink } : FW.FileChange) rfl _
      (mapDelete s.fileCache p) hwfE hpeE]
  rw [hmap, List.filter_append, List.map_append]
  have hqfilter : (s.queue.map (FW.enrichEntry hashFn isBin disk)).filter
      (fun e => e.fst == p) = [] := by
    rw [List.filter_eq_nil]
    intro e he hcon
    obtain ⟨e0, he0, rfl⟩ := List.mem_map.mp he
    rw [FW.enrichEntry_fst] at hcon
    exact absurd hcon (by simp [hall e0 he0])
  rw [hqfilter]
  simp

/-- Witness for the amended C6 at the empty initial state. -/
theorem c6_add_unlink_emits_removed_witness :
    ((FW.processQueue (fun c => c) (fun _ => false) (fun _ => none)
        (FW.handleFileChange
          (FW.handleFileChange FW.initialWatcherState "src/a.txt" .add)
          "src/a.txt" .unlink)).2.filter (fun r => r.path == "src/a.txt")) =
      [{ path := "src/a.txt", type := .unlink },
       { path := "src/a.txt", type := .unlink }] :=
  c6_add_unlink_emits_removed (fun c => c) (fun _ => false) (fun _ => none)
    FW.initialWatcherState "src/a.txt" rfl (by intro e he; cases he) rfl

/-! ### The realtime channel (src/services/websocket.ts)

`WebSocketService.setupEventHandlers` (lines 143-228) installs the
socket handlers.  The embedding gives each socket event its state
update, the locally re-emitted event name, and the messages actually
sent to the server: `connect` marks the channel connected and flushes
the queued outbound messages FIFO (`processMessageQueue`, lines
275-296, with every send succeeding); `disconnect` marks it
disconnected; `reconnect_attempt` and `reconnect` only update the
connected/reconnecting flags and re-emit local events.  `sendMessage`
(lines 236-270) sends directly when connected and queues otherwise.
`subscribeToProject` (lines 303-311, connected case) sends the
`subscribe:project` message. -/

namespace Ws

structure WsState where
  connected : Bool
  reconnecting : Bool
  messageQueue : List (String × String)
  projectId : Option String
deriving DecidableEq, Repr

inductive WsEvent where
  | connect
  | disconnect (reason : String)
  | connectError
  | reconnectAttempt (n : Nat)
  | reconnect (n : Nat)
  | reconnectFailed
deriving DecidableEq, Repr

/-- One socket event: new state, locally emitted event names, and
messages sent to the server. -/
def handleSocketEvent (s : WsState) (e : WsEvent) :
    WsState × List String × List (String × String) :=
  match e with
  | .connect =>
    ({ s with connected := true, reconnecting := false, messageQueue := [] },
     ["connected"], s.messageQueue)
  | .disconnect _ => ({ s with connected := false }, ["disconnected"], [])
  | .connectError => (s, ["error"], [])
  | .reconnectAttempt _ => ({ s with reconnecting := true }, ["reconnecting"], [])
  | .reconnect _ =>
    ({ s with connected := true, reconnecting := false }, ["reconnected"], [])
  | .reconnectFailed => ({ s with reconnecting := false }, ["reconnect_failed"], [])

/-- Run a sequence of socket events, collecting all server-bound
messages in order. -/
def runEvents (s : WsState) : List WsEvent → WsState × List (String × String)
  | [] => (s, [])
  | e :: rest =>
    let r := handleSocketEvent s e
    let rr := runEvents r.1 rest
    (rr.1, r.2.2 ++ rr.2)

/-- `sendMessage`: when connected the message goes out directly;
otherwise it is appended to the in-memory queue. -/
def sendMessage (s : WsState) (event data : String) :
    WsState × List (String × String) :=
  if s.connected then (s, [(event, data)])
  else ({ s with messageQueue := s.messageQueue ++ [(event, data)] }, [])

/-- `subscribeToProject` in the connected case. -/
def subscribeToProject (s : WsState) (projectId : String) :
    WsState × List (String × String) :=
  sendMessage s "subscribe:project" projectId

end Ws

/-- Counterexample to C9 as stated: a channel that successfully
subscribed while connected, then lost the transport, re-issues nothing
to the server during the reconnection sequence (`reconnect_attempt`,
`reconnect`, `connect`): the handlers only reset flags and flush the —
empty — outbound queue, so no `subscribe:project` message is sent. -/
theorem c9_resubscribe_counterexample :
    ("subscribe:project", "p1") ∉
      (Ws.runEvents
        ((Ws.subscribeToProject
          { connected := true, reconnecting := false, messageQueue := [],
            projectId := some "p1" } "p1").1)
        [.disconnect "transport close", .reconnectAttempt 1, .reconnect 1,
         .connect]).2 := by
  decide

/-- Claim C9 as amended: after a reconnection the channel only flushes
messages that were still queued while disconnected; it does not
automatically re-issue the project subscription.  A channel whose
outbound queue is empty sends nothing to the server during the whole
reconnection sequence; the subscription reaches the server again only
when the caller invokes `subscribeToProject` once more (each connected
invocation sends the `subscribe:project` message). -/
theorem c9_no_automatic_resubscribe (s : Ws.WsState) (reason : String) (n : Nat)
    (hq : s.messageQueue = []) :
    (Ws.runEvents s
        [.disconnect reason, .reconnectAttempt n, .reconnect n, .connect]).2 = []
    ∧ ∀ (s2 : Ws.WsState) (pid : String), s2.connected = true →
        (Ws.subscribeToProject s2 pid).2 = [("subscribe:project", pid)] := by
  constructor
  · simp [Ws.runEvents, Ws.handleSocketEvent, hq]
  · intro s2 pid hc
    unfold Ws.subscribeToProject Ws.sendMessage
    rw [if_pos hc]

/-- Witness for the amended C9: a subscribed, then disconnected channel
with an empty queue sends nothing while reconnecting; an explicit
re-subscription sends the message. -/
theorem c9_no_automatic_resubscribe_witness :
    (Ws.runEvents
        { connected := true, reconnecting := false, messageQueue := [],
          projectId := some "p1" }
        [.disconnect "transport close", .reconnectAttempt 1, .reconnect 1,
         .connect]).2 = []
    ∧ (Ws.subscribeToProject
        { connected := true, reconnecting := false, messageQueue := [],
          projectId := some "p1" } "p1").2 = [("subscribe:project", "p1")] := by
  have h := c9_no_automatic_resubscribe
    { connected := true, reconnecting := false, messageQueue := [],
      projectId := some "p1" } "transport close" 1 rfl
  exact ⟨h.1, h.2 _ "p1" rfl⟩
